import Mathlib

/-!
Verification of the QR alignment-pattern finder
(`src/core/src/qrcode/QRAlignmentPatternFinder.cpp`).

The C++ core is embedded shallowly:

* The bilevel pixel grid (`BitMatrix`) is a width, a height and a total
  function `isDark : Int → Int → Bool`; the embedding additionally *logs*
  every pixel access the C++ code would perform (`queries`), so that
  bounds-safety claims about `image.get` calls become statements about the
  log.  The C++ accessor itself performs no bounds check, so the log is
  exactly the set of coordinates the real code would read.
* C++ `float` arithmetic is modelled by exact rational arithmetic (`ℚ`);
  all quantities involved are small integers, halves and thirds, for which
  the float computations of the source are exact as well.
* Each C++ loop becomes a structurally recursive function on an explicit
  fuel argument; call sites pass the exact iteration bound of the loop
  (the distance from the loop variable to its bound), so the fuel never runs out
  before the loop guard fails and the embedded function computes precisely
  what the loop computes.
* `std::numeric_limits<float>::quiet_NaN()` sentinels are replaced by
  `Option`: `none` is the not-found / not-confirmed outcome.
-/

namespace QRAlign

/-- The read-only bilevel pixel grid (external `BitMatrix`): a width, a
height and the accessor `isDark x y` (`x` = column, `y` = row), total here
because the C++ accessor is unchecked. -/
structure Grid where
  width : Int
  height : Int
  isDark : Int → Int → Bool

/-- `StateCount = std::array<int, 3>`: the run-length triple threaded
through the horizontal scan and the vertical cross-check. -/
structure StateCount where
  c0 : Int
  c1 : Int
  c2 : Int
deriving DecidableEq

/-- `CenterFromEnd(stateCount, end)`:
`(float)(end - stateCount[2]) - stateCount[1] / 2.0f`. -/
def centerFromEnd (sc : StateCount) (e : Int) : ℚ :=
  ((e : ℚ) - (sc.c2 : ℚ)) - (sc.c1 : ℚ) / 2

/-- `FoundPatternCross(stateCount, moduleSize)`: false iff some count
deviates from `moduleSize` by at least `maxVariance = moduleSize / 2`. -/
def foundPatternCross (sc : StateCount) (moduleSize : ℚ) : Bool :=
  let maxVariance : ℚ := moduleSize / 2
  decide (|moduleSize - (sc.c0 : ℚ)| < maxVariance) &&
  decide (|moduleSize - (sc.c1 : ℚ)| < maxVariance) &&
  decide (|moduleSize - (sc.c2 : ℚ)| < maxVariance)

/-- C++ `static_cast<int>` on a float value: truncation toward zero. -/
def ratTrunc (q : ℚ) : Int :=
  if 0 ≤ q then ⌊q⌋ else ⌈q⌉

/-- Outcome of one directional run-counting loop of `CrossCheckVertical`:
the final row index, the final counter value, and the log of pixel
coordinates read. -/
structure VScan where
  endI : Int
  cnt : Int
  queries : List (Int × Int)
deriving DecidableEq

/-- One upward loop of `CrossCheckVertical`:
`while (i >= 0 && image.get(centerJ, i) == want && cnt <= maxCount) { cnt++; i--; }`
(`want = true` for the two dark-run loops, `want = false` for the light-run
loops, where the C++ source negates `image.get`).  The pixel is read
whenever `i >= 0` holds, before the count check, exactly like the C++
short-circuit `&&`. -/
def vscanUpF (g : Grid) (x : Int) (want : Bool) (mc : Int) :
    Nat → Int → Int → VScan
  | 0, i, cnt => ⟨i, cnt, []⟩
  | fuel+1, i, cnt =>
    if 0 ≤ i then
      if g.isDark x i = want ∧ cnt ≤ mc then
        let r := vscanUpF g x want mc fuel (i - 1) (cnt + 1)
        ⟨r.endI, r.cnt, (x, i) :: r.queries⟩
      else ⟨i, cnt, [(x, i)]⟩
    else ⟨i, cnt, []⟩

/-- The upward loop with its exact fuel: at most `i + 1` iterations can
pass the `i >= 0` guard. -/
def scanUpRun (g : Grid) (x : Int) (want : Bool) (mc i cnt : Int) : VScan :=
  vscanUpF g x want mc (i + 1).toNat i cnt

/-- One downward loop of `CrossCheckVertical`:
`while (i < maxI && image.get(centerJ, i) == want && cnt <= maxCount) { cnt++; i++; }`. -/
def vscanDownF (g : Grid) (x : Int) (want : Bool) (mc maxI : Int) :
    Nat → Int → Int → VScan
  | 0, i, cnt => ⟨i, cnt, []⟩
  | fuel+1, i, cnt =>
    if i < maxI then
      if g.isDark x i = want ∧ cnt ≤ mc then
        let r := vscanDownF g x want mc maxI fuel (i + 1) (cnt + 1)
        ⟨r.endI, r.cnt, (x, i) :: r.queries⟩
      else ⟨i, cnt, [(x, i)]⟩
    else ⟨i, cnt, []⟩

/-- The downward loop with its exact fuel: at most `maxI - i` iterations
can pass the `i < maxI` guard. -/
def scanDownRun (g : Grid) (x : Int) (want : Bool) (mc maxI i cnt : Int) : VScan :=
  vscanDownF g x want mc maxI (maxI - i).toNat i cnt

/-- First phase of `CrossCheckVertical`: count upward from `startI` while
the pixel is dark, into `stateCount[1]`. -/
def vphase1 (g : Grid) (centerJ mc startI : Int) : VScan :=
  scanUpRun g centerJ true mc startI 0

/-- Second phase: continue upward while the pixel is light, into
`stateCount[0]`. -/
def vphase2 (g : Grid) (centerJ mc startI : Int) : VScan :=
  scanUpRun g centerJ false mc (vphase1 g centerJ mc startI).endI 0

/-- Third phase: count downward from `startI + 1` while the pixel is dark,
continuing `stateCount[1]`. -/
def vphase3 (g : Grid) (centerJ mc startI : Int) : VScan :=
  scanDownRun g centerJ true mc g.height (startI + 1) (vphase1 g centerJ mc startI).cnt

/-- Fourth phase: continue downward while the pixel is light, into
`stateCount[2]`. -/
def vphase4 (g : Grid) (centerJ mc startI : Int) : VScan :=
  scanDownRun g centerJ false mc g.height (vphase3 g centerJ mc startI).endI 0

/-- Result of `CrossCheckVertical`: the returned value (`none` = NaN), the
`stateCount` contents at the return point, and the log of pixels read. -/
structure VCheck where
  result : Option ℚ
  counts : StateCount
  queries : List (Int × Int)

/-- `CrossCheckVertical(image, startI, centerJ, maxCount,
originalStateCountTotal, moduleSize)`, with each early `return NaN`
becoming `none` and the pixel-read log of the loops actually executed up
to that point. -/
def crossCheckVertical (g : Grid) (startI centerJ mc originalTotal : Int)
    (moduleSize : ℚ) : VCheck :=
  let s1 := vphase1 g centerJ mc startI
  if s1.endI < 0 ∨ s1.cnt > mc then
    ⟨none, ⟨0, s1.cnt, 0⟩, s1.queries⟩
  else
    let s2 := vphase2 g centerJ mc startI
    if s2.cnt > mc then ⟨none, ⟨s2.cnt, s1.cnt, 0⟩, s1.queries ++ s2.queries⟩
    else
      let s3 := vphase3 g centerJ mc startI
      if s3.endI = g.height ∨ s3.cnt > mc then
        ⟨none, ⟨s2.cnt, s3.cnt, 0⟩, s1.queries ++ s2.queries ++ s3.queries⟩
      else
        let s4 := vphase4 g centerJ mc startI
        if s4.cnt > mc then
          ⟨none, ⟨s2.cnt, s3.cnt, s4.cnt⟩,
            s1.queries ++ s2.queries ++ s3.queries ++ s4.queries⟩
        else
          let sc : StateCount := ⟨s2.cnt, s3.cnt, s4.cnt⟩
          let total := s2.cnt + s3.cnt + s4.cnt
          let res : Option ℚ :=
            if 5 * |total - originalTotal| ≥ 2 * originalTotal then none
            else if foundPatternCross sc moduleSize then
              some (centerFromEnd sc s4.endI)
            else none
          ⟨res, sc, s1.queries ++ s2.queries ++ s3.queries ++ s4.queries⟩

/-- A candidate alignment pattern: `x` = centerX (column), `y` = centerY
(row), `modSize` = estimatedModuleSize.  `AlignmentPattern` objects are
created by `possibleCenters.emplace_back(centerJ, centerI,
estimatedModuleSize)` and never mutated afterwards. -/
structure AlignmentPattern where
  x : ℚ
  y : ℚ
  modSize : ℚ
deriving DecidableEq

/-- Modelled from the spec: `AlignmentPattern::aboutEquals` is only
declared in this source tree (`QRAlignmentPattern.h` is not part of it).
Per the proximity predicate of the spec, `aboutEquals(a, b)` is true iff
`|a.size - b.size| <= 1` and `|a.centerY - b.centerY| <= a.size` and
`|a.centerX - b.centerX| <= a.size`, the tolerances scaling with the
module size of the existing candidate.  In the call
`center.aboutEquals(estimatedModuleSize, centerI, centerJ)` the receiver
is the existing candidate and the arguments are the new observation. -/
def aboutEquals (c : AlignmentPattern) (newModSize newY newX : ℚ) : Bool :=
  decide (|c.modSize - newModSize| ≤ 1) &&
  decide (|c.y - newY| ≤ c.modSize) &&
  decide (|c.x - newX| ≤ c.modSize)

/-- Modelled from the spec: `AlignmentPattern::combineEstimate` is only
declared in this source tree.  Per the spec it combines by the simple
arithmetic mean of centerX, centerY and estimatedModuleSize of the
existing candidate and the new observation, with equal weighting. -/
def combineEstimate (c : AlignmentPattern) (i j newModSize : ℚ) : AlignmentPattern :=
  ⟨(c.x + j) / 2, (c.y + i) / 2, (c.modSize + newModSize) / 2⟩

/-- Outcome of the aggregation step: the confirmed (combined) candidate if
an existing one matched, the updated candidate list, and the candidates
newly appended by this step (`recorded`). -/
structure Confirm where
  confirmed : Option AlignmentPattern
  centers : List AlignmentPattern
  recorded : List AlignmentPattern
deriving DecidableEq

/-- The aggregation part of `HandlePossibleCenter`: scan `possibleCenters`
in order for the first candidate with
`center.aboutEquals(estimatedModuleSize, centerI, centerJ)`; on a match
return its `combineEstimate(centerI, centerJ, estimatedModuleSize)` and
leave the list unchanged, otherwise append the new observation. -/
def tryConfirm (centers : List AlignmentPattern) (est centerI centerJ : ℚ) : Confirm :=
  match centers.find? (fun c => aboutEquals c est centerI centerJ) with
  | some c => ⟨some (combineEstimate c centerI centerJ est), centers, []⟩
  | none => ⟨none, centers ++ [⟨centerJ, centerI, est⟩], [⟨centerJ, centerI, est⟩]⟩

/-- Outcome of `HandlePossibleCenter`: confirmed value (if it returned
true), updated candidate list, newly recorded candidates, pixel-read log
of the vertical cross-check. -/
structure HandleOut where
  confirmed : Option AlignmentPattern
  centers : List AlignmentPattern
  recorded : List AlignmentPattern
  queries : List (Int × Int)

/-- `HandlePossibleCenter(image, stateCount, i, j, moduleSize, confirm,
possibleCenters)`: compute `centerJ = CenterFromEnd(stateCount, j)`, run
`CrossCheckVertical(image, i, (int)centerJ, 2 * stateCount[1], total,
moduleSize)`, and on a non-NaN result aggregate with
`estimatedModuleSize = total / 3.0f`. -/
def handlePossibleCenter (g : Grid) (sc : StateCount) (i j : Int)
    (moduleSize : ℚ) (centers : List AlignmentPattern) : HandleOut :=
  let total := sc.c0 + sc.c1 + sc.c2
  let centerJ : ℚ := centerFromEnd sc j
  let v := crossCheckVertical g i (ratTrunc centerJ) (2 * sc.c1) total moduleSize
  match v.result with
  | some centerI =>
    let est : ℚ := (total : ℚ) / 3
    let t := tryConfirm centers est centerI centerJ
    ⟨t.confirmed, t.centers, t.recorded, v.queries⟩
  | none => ⟨none, centers, [], v.queries⟩

/-- Increment `stateCount[k]` (`stateCount[k]++`); the source only ever
uses `k` ∈ 0, 1, 2. -/
def StateCount.inc (sc : StateCount) (k : Int) : StateCount :=
  if k = 0 then ⟨sc.c0 + 1, sc.c1, sc.c2⟩
  else if k = 1 then ⟨sc.c0, sc.c1 + 1, sc.c2⟩
  else if k = 2 then ⟨sc.c0, sc.c1, sc.c2 + 1⟩
  else sc

/-- The window slide executed after a winner check:
`stateCount[0] = stateCount[2]; stateCount[1] = 1; stateCount[2] = 0;`
(with `currentState = 1` set alongside). -/
def slideState (sc : StateCount) : StateCount := ⟨sc.c2, 1, 0⟩

/-- One step of the per-row state machine of `Find` for every branch
except the winner branch (dark pixel while `currentState == 2`), which
involves `HandlePossibleCenter` and is inlined in `scanRowLoop`:

* dark pixel, `currentState == 1`: `stateCount[1]++`;
* dark pixel, other state (0 in any reachable run):
  `stateCount[++currentState]++`;
* light pixel: `if (currentState == 1) currentState++;`
  then `stateCount[currentState]++`. -/
def rowStepNoWinner (dark : Bool) (cs : Int) (sc : StateCount) : Int × StateCount :=
  if dark then
    if cs = 1 then (1, sc.inc 1)
    else (cs + 1, sc.inc (cs + 1))
  else
    let cs2 := if cs = 1 then cs + 1 else cs
    (cs2, sc.inc cs2)

/-- Outcome of scanning (the rest of) one row. -/
structure RowOut where
  confirmed : Option AlignmentPattern
  centers : List AlignmentPattern
  recorded : List AlignmentPattern
  queries : List (Int × Int)

/-- The code after the per-row loop of `Find`: one more
`FoundPatternCross` / `HandlePossibleCenter` attempt with end index
`maxJ`. -/
def endOfRow (g : Grid) (ms : ℚ) (i maxJ : Int) (sc : StateCount)
    (centers : List AlignmentPattern) : RowOut :=
  if foundPatternCross sc ms then
    let h := handlePossibleCenter g sc i maxJ ms centers
    ⟨h.confirmed, h.centers, h.recorded, h.queries⟩
  else ⟨none, centers, [], []⟩

/-- The `while (j < maxJ)` state-machine loop of `Find` over one row `i`,
starting at column `j` in state `cs` with counts `sc`; fuel is the exact
remaining iteration count `maxJ - j`.  A confirmed aggregation makes the
whole search return, so it short-circuits here. -/
def scanRowLoop (g : Grid) (ms : ℚ) (i maxJ : Int) :
    Nat → Int → Int → StateCount → List AlignmentPattern → RowOut
  | 0, _j, _cs, sc, centers => endOfRow g ms i maxJ sc centers
  | fuel+1, j, cs, sc, centers =>
    if j < maxJ then
      let dark := g.isDark j i
      if dark = true ∧ cs = 2 then
        if foundPatternCross sc ms then
          let h := handlePossibleCenter g sc i j ms centers
          match h.confirmed with
          | some conf =>
            ⟨some conf, h.centers, h.recorded, (j, i) :: h.queries⟩
          | none =>
            let r := scanRowLoop g ms i maxJ fuel (j + 1) 1 (slideState sc) h.centers
            ⟨r.confirmed, r.centers, h.recorded ++ r.recorded,
              (j, i) :: (h.queries ++ r.queries)⟩
        else
          let r := scanRowLoop g ms i maxJ fuel (j + 1) 1 (slideState sc) centers
          ⟨r.confirmed, r.centers, r.recorded, (j, i) :: r.queries⟩
      else
        let s := rowStepNoWinner dark cs sc
        let r := scanRowLoop g ms i maxJ fuel (j + 1) s.1 s.2 centers
        ⟨r.confirmed, r.centers, r.recorded, (j, i) :: r.queries⟩
    else endOfRow g ms i maxJ sc centers

/-- Outcome of the leading-white-pixel burn loop:
`while (j < maxJ && !image.get(j, i)) j++;`. -/
structure Burn where
  j : Int
  queries : List (Int × Int)

/-- The burn loop with explicit fuel (exact bound `maxJ - j`). -/
def burnWhiteF (g : Grid) (i maxJ : Int) : Nat → Int → Burn
  | 0, j => ⟨j, []⟩
  | fuel+1, j =>
    if j < maxJ then
      if g.isDark j i then ⟨j, [(j, i)]⟩
      else
        let r := burnWhiteF g i maxJ fuel (j + 1)
        ⟨r.j, (j, i) :: r.queries⟩
    else ⟨j, []⟩

/-- One full row iteration of `Find`: reset `stateCount` to zeros, burn
leading white pixels from `startX`, then run the state machine from
`currentState = 0`. -/
def scanRow (g : Grid) (ms : ℚ) (i startX maxJ : Int)
    (centers : List AlignmentPattern) : RowOut :=
  let b := burnWhiteF g i maxJ (maxJ - startX).toNat startX
  let r := scanRowLoop g ms i maxJ (maxJ - b.j).toNat b.j 0 ⟨0, 0, 0⟩ centers
  ⟨r.confirmed, r.centers, r.recorded, b.queries ++ r.queries⟩

/-- Row visited at generation index `iGen`:
`middleI + ((iGen & 0x01) == 0 ? (iGen + 1) / 2 : -((iGen + 1) / 2))`
(`iGen` is never negative at a use site, where `%` and `/` agree with the
C++ operators). -/
def rowAt (middleI : Int) (iGen : Int) : Int :=
  middleI + (if iGen % 2 = 0 then (iGen + 1) / 2 else -((iGen + 1) / 2))

/-- Result and execution trace of `AlignmentPatternFinder::Find`:
`confirmed` is the early-return value of a confirmed aggregation,
`centers` the final `possibleCenters`, `recorded` all candidates ever
appended in order, `rows` the rows examined in order, `queries` the log of
every pixel read. -/
structure FindOut where
  confirmed : Option AlignmentPattern
  centers : List AlignmentPattern
  recorded : List AlignmentPattern
  rows : List Int
  queries : List (Int × Int)

/-- The `for (int iGen = 0; iGen < height; iGen++)` loop of `Find`, with
exact fuel `height - iGen`. -/
def findLoopF (g : Grid) (ms : ℚ) (startX maxJ middleI height : Int) :
    Nat → Int → List AlignmentPattern → FindOut
  | 0, _iGen, centers => ⟨none, centers, [], [], []⟩
  | fuel+1, iGen, centers =>
    if iGen < height then
      let i := rowAt middleI iGen
      let r := scanRow g ms i startX maxJ centers
      match r.confirmed with
      | some c => ⟨some c, r.centers, r.recorded, [i], r.queries⟩
      | none =>
        let rest := findLoopF g ms startX maxJ middleI height fuel (iGen + 1) r.centers
        ⟨rest.confirmed, rest.centers, r.recorded ++ rest.recorded,
          i :: rest.rows, r.queries ++ rest.queries⟩
    else ⟨none, centers, [], [], []⟩

/-- `AlignmentPatternFinder::Find(image, startX, startY, width, height,
moduleSize, result)` together with its execution trace.
`maxJ = startX + width`, `middleI = startY + (height / 2)`; when
`height ≤ 0` no row is scanned, so the Euclidean `/` here is
indistinguishable from the C++ truncating division. -/
def findTrace (g : Grid) (startX startY width height : Int) (ms : ℚ) : FindOut :=
  let maxJ := startX + width
  let middleI := startY + height / 2
  findLoopF g ms startX maxJ middleI height height.toNat 0 []

/-- The result of `Find`: `some` of the confirmed candidate on the early
return, else `some` of `possibleCenters.front()` when the list is
non-empty (both `DecodeStatus::NoError` in the source), else `none`
(`DecodeStatus::NotFound`). -/
def find (g : Grid) (startX startY width height : Int) (ms : ℚ) :
    Option AlignmentPattern :=
  let t := findTrace g startX startY width height ms
  match t.confirmed with
  | some c => some c
  | none => t.centers.head?

/-- In-bounds predicate for a logged pixel read. -/
def InBounds (g : Grid) (p : Int × Int) : Prop :=
  0 ≤ p.1 ∧ p.1 < g.width ∧ 0 ≤ p.2 ∧ p.2 < g.height

/-- Ordered non-proximity of two recorded candidates: the earlier list
entry `a` does not `aboutEquals`-match the observation that created the
later entry `b` (a freshly recorded candidate stores exactly its
observation values). -/
def noMatch (a b : AlignmentPattern) : Prop :=
  aboutEquals a b.modSize b.y b.x = false

/-- Invariant of the per-row state machine of `Find` relating the current
column `j`, state `cs` and counts `sc` (the scan started at column
`startX`): the runs counted so far fit between `startX` and `j`. -/
def RowInv (startX maxJ j cs : Int) (sc : StateCount) : Prop :=
  startX ≤ j ∧ (j ≤ maxJ ∨ cs = 0) ∧
  (cs = 0 → sc.c1 = 0 ∧ sc.c2 = 0) ∧
  (cs = 1 → 1 ≤ sc.c1 ∧ sc.c2 = 0 ∧ startX + sc.c1 ≤ j) ∧
  (cs = 2 → 1 ≤ sc.c1 ∧ 1 ≤ sc.c2 ∧ startX + sc.c1 + sc.c2 ≤ j) ∧
  (cs = 0 ∨ cs = 1 ∨ cs = 2)

/-- Modelled from the spec (comparison definition only): the length of the
run of consecutive pixels of colour `want` at `(x, y)`, `(x, y - 1)`, ...,
stopping at the top edge of the grid. -/
def runUpF (g : Grid) (x : Int) (want : Bool) : Nat → Int → Nat
  | 0, _ => 0
  | fuel+1, y =>
    if 0 ≤ y ∧ g.isDark x y = want then runUpF g x want fuel (y - 1) + 1 else 0

/-- `runUpF` with its exact fuel. -/
def runUp (g : Grid) (x y : Int) (want : Bool) : Nat :=
  runUpF g x want (y + 1).toNat y

/-- Helper for the zig-zag row enumeration of the spec, generation indices
`iGen`, `iGen + 1`, ... as long as they stay below `height`. -/
def specZigZagRowsF (middleI height : Int) : Nat → Int → List Int
  | 0, _ => []
  | fuel+1, iGen =>
    if iGen < height then rowAt middleI iGen :: specZigZagRowsF middleI height fuel (iGen + 1)
    else []

/-- The zig-zag row order stated by the spec: for generation index `n`
from `0` to `height - 1`, row `middleRow + (n + 1) / 2` for even `n` and
`middleRow - (n + 1) / 2` for odd `n`, with
`middleRow = startY + height / 2`. -/
def specZigZagRows (startY height : Int) : List Int :=
  specZigZagRowsF (startY + height / 2) height height.toNat 0

/-- All-light 1×1 grid. -/
def gridSmallLight : Grid := ⟨1, 1, fun _ _ => false⟩

/-- All-light 2×2 grid. -/
def gridW : Grid := ⟨2, 2, fun _ _ => false⟩

/-- 1×5 grid whose single column reads light, light, dark, light, light
from row 0 to row 4. -/
def gridCol : Grid := ⟨1, 5, fun _ y => decide (y = 2)⟩

/-- 1×5 grid whose single column reads light, dark, dark, dark, light
from row 0 to row 4. -/
def gridDarkCol : Grid := ⟨1, 5, fun _ y => decide (1 ≤ y ∧ y ≤ 3)⟩

/-! ## Basic facts about the ratio validator, the center estimator and the
truncating cast -/

theorem foundPatternCross_eq_true_iff (sc : StateCount) (ms : ℚ) :
    foundPatternCross sc ms = true ↔
      (|ms - (sc.c0 : ℚ)| < ms / 2 ∧ |ms - (sc.c1 : ℚ)| < ms / 2 ∧
        |ms - (sc.c2 : ℚ)| < ms / 2) := by
  simp [foundPatternCross, Bool.and_eq_true, decide_eq_true_eq, and_assoc]

theorem foundPatternCross_pos {sc : StateCount} {ms : ℚ}
    (h : foundPatternCross sc ms = true) :
    1 ≤ sc.c0 ∧ 1 ≤ sc.c1 ∧ 1 ≤ sc.c2 ∧ 0 < ms := by
  rw [foundPatternCross_eq_true_iff] at h
  obtain ⟨h0, h1, h2⟩ := h
  rw [abs_lt] at h0 h1 h2
  have hms : 0 < ms := by
    rcases h0 with ⟨ha, hb⟩
    nlinarith [abs_nonneg (ms - (sc.c0 : ℚ))]
  have g0 : (0 : ℚ) < (sc.c0 : ℚ) := by rcases h0 with ⟨ha, hb⟩; linarith
  have g1 : (0 : ℚ) < (sc.c1 : ℚ) := by rcases h1 with ⟨ha, hb⟩; linarith
  have g2 : (0 : ℚ) < (sc.c2 : ℚ) := by rcases h2 with ⟨ha, hb⟩; linarith
  have i0 : 0 < sc.c0 := by exact_mod_cast g0
  have i1 : 0 < sc.c1 := by exact_mod_cast g1
  have i2 : 0 < sc.c2 := by exact_mod_cast g2
  exact ⟨i0, i1, i2, hms⟩

theorem foundPatternCross_zero_counts (ms : ℚ) :
    foundPatternCross ⟨0, 0, 0⟩ ms = false := by
  cases h : foundPatternCross ⟨0, 0, 0⟩ ms with
  | false => rfl
  | true => exact absurd (foundPatternCross_pos h).1 (by norm_num)

theorem foundPatternCross_nonpos {ms : ℚ} (hms : ms ≤ 0) (sc : StateCount) :
    foundPatternCross sc ms = false := by
  cases h : foundPatternCross sc ms with
  | false => rfl
  | true => exact absurd (foundPatternCross_pos h).2.2.2 (by linarith)

theorem ratTrunc_lower {q : ℚ} {lo : Int} (hlo : 0 ≤ lo) (h : (lo : ℚ) ≤ q) :
    lo ≤ ratTrunc q := by
  have h0 : (0 : ℚ) ≤ q := le_trans (by exact_mod_cast hlo) h
  rw [ratTrunc, if_pos h0]
  exact Int.le_floor.mpr h

theorem ratTrunc_upper {q : ℚ} {hi : Int} (h0 : (0 : ℚ) ≤ q) (h : q < (hi : ℚ)) :
    ratTrunc q < hi := by
  rw [ratTrunc, if_pos h0]
  exact Int.floor_lt.mpr h

theorem centerFromEnd_bounds {sc : StateCount} {j lo : Int}
    (h1 : 1 ≤ sc.c1) (h2 : 1 ≤ sc.c2) (h3 : lo + sc.c1 + sc.c2 ≤ j) :
    (lo : ℚ) ≤ centerFromEnd sc j ∧ centerFromEnd sc j < (j : ℚ) := by
  have c1 : (1 : ℚ) ≤ (sc.c1 : ℚ) := by exact_mod_cast h1
  have c2 : (1 : ℚ) ≤ (sc.c2 : ℚ) := by exact_mod_cast h2
  have c3 : (lo : ℚ) + (sc.c1 : ℚ) + (sc.c2 : ℚ) ≤ (j : ℚ) := by exact_mod_cast h3
  constructor
  · unfold centerFromEnd; linarith
  · unfold centerFromEnd; linarith

/-! ## Facts about the directional scans of the vertical cross-check -/

theorem vscanUpF_queries (g : Grid) (x : Int) (want : Bool) (mc : Int) :
    ∀ (fuel : Nat) (i cnt : Int), ∀ p ∈ (vscanUpF g x want mc fuel i cnt).queries,
      p.1 = x ∧ 0 ≤ p.2 ∧ p.2 ≤ i := by
  intro fuel
  induction fuel with
  | zero => intro i cnt p hp; simp [vscanUpF] at hp
  | succ n ih =>
    intro i cnt p hp
    simp only [vscanUpF] at hp
    by_cases h0 : 0 ≤ i
    · rw [if_pos h0] at hp
      by_cases hc : g.isDark x i = want ∧ cnt ≤ mc
      · rw [if_pos hc] at hp
        simp only [List.mem_cons] at hp
        rcases hp with rfl | hp
        · exact ⟨rfl, h0, le_refl i⟩
        · obtain ⟨ha, hb, hcle⟩ := ih (i - 1) (cnt + 1) p hp
          exact ⟨ha, hb, by omega⟩
      · rw [if_neg hc] at hp
        simp only [List.mem_singleton] at hp
        subst hp
        exact ⟨rfl, h0, le_refl i⟩
    · rw [if_neg h0] at hp
      simp at hp

theorem vscanUpF_endI_le (g : Grid) (x : Int) (want : Bool) (mc : Int) :
    ∀ (fuel : Nat) (i cnt : Int), (vscanUpF g x want mc fuel i cnt).endI ≤ i := by
  intro fuel
  induction fuel with
  | zero => intro i cnt; simp [vscanUpF]
  | succ n ih =>
    intro i cnt
    simp only [vscanUpF]
    by_cases h0 : 0 ≤ i
    · rw [if_pos h0]
      by_cases hc : g.isDark x i = want ∧ cnt ≤ mc
      · rw [if_pos hc]
        have := ih (i - 1) (cnt + 1)
        calc (vscanUpF g x want mc n (i - 1) (cnt + 1)).endI ≤ i - 1 := this
          _ ≤ i := by omega
      · rw [if_neg hc]
    · rw [if_neg h0]

theorem vscanDownF_queries (g : Grid) (x : Int) (want : Bool) (mc maxI : Int) :
    ∀ (fuel : Nat) (i cnt : Int), ∀ p ∈ (vscanDownF g x want mc maxI fuel i cnt).queries,
      p.1 = x ∧ i ≤ p.2 ∧ p.2 < maxI := by
  intro fuel
  induction fuel with
  | zero => intro i cnt p hp; simp [vscanDownF] at hp
  | succ n ih =>
    intro i cnt p hp
    simp only [vscanDownF] at hp
    by_cases h0 : i < maxI
    · rw [if_pos h0] at hp
      by_cases hc : g.isDark x i = want ∧ cnt ≤ mc
      · rw [if_pos hc] at hp
        simp only [List.mem_cons] at hp
        rcases hp with rfl | hp
        · exact ⟨rfl, le_refl i, h0⟩
        · obtain ⟨ha, hb, hcle⟩ := ih (i + 1) (cnt + 1) p hp
          exact ⟨ha, by omega, hcle⟩
      · rw [if_neg hc] at hp
        simp only [List.mem_singleton] at hp
        subst hp
        exact ⟨rfl, le_refl i, h0⟩
    · rw [if_neg h0] at hp
      simp at hp

theorem vscanDownF_endI_ge (g : Grid) (x : Int) (want : Bool) (mc maxI : Int) :
    ∀ (fuel : Nat) (i cnt : Int), i ≤ (vscanDownF g x want mc maxI fuel i cnt).endI := by
  intro fuel
  induction fuel with
  | zero => intro i cnt; simp [vscanDownF]
  | succ n ih =>
    intro i cnt
    simp only [vscanDownF]
    by_cases h0 : i < maxI
    · rw [if_pos h0]
      by_cases hc : g.isDark x i = want ∧ cnt ≤ mc
      · rw [if_pos hc]
        have := ih (i + 1) (cnt + 1)
        calc i ≤ i + 1 := by omega
          _ ≤ (vscanDownF g x want mc maxI n (i + 1) (cnt + 1)).endI := this
      · rw [if_neg hc]
    · rw [if_neg h0]

/-- The counter of an upward scan grows by exactly the length of the run
of `want`-coloured pixels above the start, capped by the remaining
headroom of `maxCount`. -/
theorem vscanUpF_cnt (g : Grid) (x : Int) (want : Bool) (mc : Int) :
    ∀ (fuel : Nat) (y cnt : Int),
      (vscanUpF g x want mc fuel y cnt).cnt
        = cnt + ((min (runUpF g x want fuel y) ((mc - cnt + 1).toNat) : Nat) : Int) := by
  intro fuel
  induction fuel with
  | zero => intro y cnt; simp [vscanUpF, runUpF]
  | succ n ih =>
    intro y cnt
    simp only [vscanUpF, runUpF]
    by_cases h0 : 0 ≤ y
    · rw [if_pos h0]
      by_cases hw : g.isDark x y = want
      · by_cases hcnt : cnt ≤ mc
        · rw [if_pos ⟨hw, hcnt⟩, if_pos ⟨h0, hw⟩]
          have := ih (y - 1) (cnt + 1)
          simp only [this]
          omega
        · rw [if_neg (by tauto), if_pos ⟨h0, hw⟩]
          simp only
          omega
      · rw [if_neg (by tauto), if_neg (by tauto)]
        simp
    · rw [if_neg h0, if_neg (by tauto)]
      simp

theorem scanUpRun_cnt (g : Grid) (x : Int) (want : Bool) (mc y : Int) :
    (scanUpRun g x want mc y 0).cnt
      = ((min (runUp g x y want) ((mc + 1).toNat) : Nat) : Int) := by
  have := vscanUpF_cnt g x want mc (y + 1).toNat y 0
  simp only [scanUpRun, runUp]
  omega

theorem scanUpRun_endI_le (g : Grid) (x : Int) (want : Bool) (mc i cnt : Int) :
    (scanUpRun g x want mc i cnt).endI ≤ i :=
  vscanUpF_endI_le g x want mc _ i cnt

theorem scanDownRun_endI_ge (g : Grid) (x : Int) (want : Bool) (mc maxI i cnt : Int) :
    i ≤ (scanDownRun g x want mc maxI i cnt).endI :=
  vscanDownF_endI_ge g x want mc maxI _ i cnt

/-- Every pixel read by `CrossCheckVertical` stays inside the grid as soon
as its column argument and starting row are inside the grid: the row
iteration is clamped by the loop guards `i >= 0` / `i < maxI`. -/
theorem crossCheckVertical_queries (g : Grid) (startI x mc orig : Int) (ms : ℚ)
    (hx0 : 0 ≤ x) (hx1 : x < g.width) (hi0 : 0 ≤ startI) (hi1 : startI < g.height) :
    ∀ p ∈ (crossCheckVertical g startI x mc orig ms).queries, InBounds g p := by
  have e1 : (vphase1 g x mc startI).endI ≤ startI := scanUpRun_endI_le g x true mc startI 0
  have A1 : ∀ p ∈ (vphase1 g x mc startI).queries, InBounds g p := by
    intro p hp
    simp only [vphase1, scanUpRun] at hp
    obtain ⟨ha, hb, hc⟩ := vscanUpF_queries g x true mc _ startI 0 p hp
    exact ⟨by omega, by omega, hb, by omega⟩
  have A2 : ∀ p ∈ (vphase2 g x mc startI).queries, InBounds g p := by
    intro p hp
    simp only [vphase2, scanUpRun] at hp
    obtain ⟨ha, hb, hc⟩ :=
      vscanUpF_queries g x false mc _ (vphase1 g x mc startI).endI 0 p hp
    exact ⟨by omega, by omega, hb, by omega⟩
  have e3 : startI + 1 ≤ (vphase3 g x mc startI).endI :=
    scanDownRun_endI_ge g x true mc g.height (startI + 1) (vphase1 g x mc startI).cnt
  have A3 : ∀ p ∈ (vphase3 g x mc startI).queries, InBounds g p := by
    intro p hp
    simp only [vphase3, scanDownRun] at hp
    obtain ⟨ha, hb, hc⟩ :=
      vscanDownF_queries g x true mc g.height _ (startI + 1)
        (vphase1 g x mc startI).cnt p hp
    exact ⟨by omega, by omega, by omega, hc⟩
  have A4 : ∀ p ∈ (vphase4 g x mc startI).queries, InBounds g p := by
    intro p hp
    simp only [vphase4, scanDownRun] at hp
    obtain ⟨ha, hb, hc⟩ :=
      vscanDownF_queries g x false mc g.height _ (vphase3 g x mc startI).endI 0 p hp
    exact ⟨by omega, by omega, by omega, hc⟩
  intro p hp
  simp only [crossCheckVertical] at hp
  split_ifs at hp <;>
    (try dsimp only at hp) <;> (try simp only [List.mem_append] at hp) <;>
    (try casesm* _ ∨ _) <;>
    first
      | exact A1 p ‹_›
      | exact A2 p ‹_›
      | exact A3 p ‹_›
      | exact A4 p ‹_›

/-! ## Facts about `HandlePossibleCenter` and the aggregation step -/

theorem handlePossibleCenter_queries_eq (g : Grid) (sc : StateCount) (i j : Int)
    (ms : ℚ) (centers : List AlignmentPattern) :
    (handlePossibleCenter g sc i j ms centers).queries =
      (crossCheckVertical g i (ratTrunc (centerFromEnd sc j)) (2 * sc.c1)
        (sc.c0 + sc.c1 + sc.c2) ms).queries := by
  simp only [handlePossibleCenter]
  cases h : (crossCheckVertical g i (ratTrunc (centerFromEnd sc j)) (2 * sc.c1)
      (sc.c0 + sc.c1 + sc.c2) ms).result <;> simp [h]

theorem tryConfirm_centers_eq (centers : List AlignmentPattern) (est i j : ℚ) :
    (tryConfirm centers est i j).centers
      = centers ++ (tryConfirm centers est i j).recorded := by
  simp only [tryConfirm]
  cases h : centers.find? (fun c => aboutEquals c est i j) <;> simp

theorem handlePossibleCenter_centers_eq (g : Grid) (sc : StateCount) (i j : Int)
    (ms : ℚ) (centers : List AlignmentPattern) :
    (handlePossibleCenter g sc i j ms centers).centers
      = centers ++ (handlePossibleCenter g sc i j ms centers).recorded := by
  simp only [handlePossibleCenter]
  cases h : (crossCheckVertical g i (ratTrunc (centerFromEnd sc j)) (2 * sc.c1)
      (sc.c0 + sc.c1 + sc.c2) ms).result <;>
    simp [h, tryConfirm_centers_eq]

theorem tryConfirm_pairwise (centers : List AlignmentPattern) (est i j : ℚ)
    (h : List.Pairwise noMatch centers) :
    List.Pairwise noMatch (tryConfirm centers est i j).centers := by
  simp only [tryConfirm]
  cases hf : centers.find? (fun c => aboutEquals c est i j) with
  | some c => simpa using h
  | none =>
    simp only
    rw [List.pairwise_append]
    refine ⟨h, List.pairwise_singleton _ _, ?_⟩
    intro a ha b hb
    simp only [List.mem_singleton] at hb
    subst hb
    have hfa : aboutEquals a est i j = false := by
      simpa using List.find?_eq_none.mp hf a ha
    exact hfa

theorem handlePossibleCenter_pairwise (g : Grid) (sc : StateCount) (i j : Int)
    (ms : ℚ) (centers : List AlignmentPattern)
    (h : List.Pairwise noMatch centers) :
    List.Pairwise noMatch (handlePossibleCenter g sc i j ms centers).centers := by
  simp only [handlePossibleCenter]
  cases hres : (crossCheckVertical g i (ratTrunc (centerFromEnd sc j)) (2 * sc.c1)
      (sc.c0 + sc.c1 + sc.c2) ms).result with
  | none => simpa using h
  | some c =>
    simpa using tryConfirm_pairwise centers
      (((sc.c0 : ℚ) + (sc.c1 : ℚ) + (sc.c2 : ℚ)) / 3) c (centerFromEnd sc j) h

/-! ## The per-row state machine: invariant and query bounds -/

theorem trunc_bounds_of_counts {sc : StateCount} {startX e : Int} (hsx : 0 ≤ startX)
    (f1 : 1 ≤ sc.c1) (f2 : 1 ≤ sc.c2) (hbe : startX + sc.c1 + sc.c2 ≤ e) :
    0 ≤ ratTrunc (centerFromEnd sc e) ∧ ratTrunc (centerFromEnd sc e) < e := by
  have hcf := centerFromEnd_bounds f1 f2 hbe
  have l := ratTrunc_lower hsx hcf.1
  have h0q : (0 : ℚ) ≤ centerFromEnd sc e :=
    le_trans (by exact_mod_cast hsx : ((0 : Int) : ℚ) ≤ (startX : ℚ)) hcf.1
  have u := ratTrunc_upper h0q hcf.2
  omega

theorem rowStepNoWinner_inv {startX maxJ j cs : Int} {sc : StateCount} (dark : Bool)
    (hlt : j < maxJ) (hne : ¬(dark = true ∧ cs = 2))
    (hinv : RowInv startX maxJ j cs sc) :
    RowInv startX maxJ (j + 1) (rowStepNoWinner dark cs sc).1
      (rowStepNoWinner dark cs sc).2 := by
  obtain ⟨hj, hjm, h0, h1, h2, hcs⟩ := hinv
  rcases hcs with rfl | rfl | rfl
  · have hh := h0 rfl
    cases dark <;>
      simp only [rowStepNoWinner, StateCount.inc, RowInv] <;>
      (norm_num; omega)
  · have hh := h1 rfl
    cases dark <;>
      simp only [rowStepNoWinner, StateCount.inc, RowInv] <;>
      (norm_num; omega)
  · have hh := h2 rfl
    cases dark with
    | true => exact absurd ⟨rfl, rfl⟩ hne
    | false =>
      simp only [rowStepNoWinner, StateCount.inc, RowInv]; norm_num; omega

theorem slideState_inv {startX maxJ j cs : Int} {sc : StateCount}
    (hlt : j < maxJ) (hinv : RowInv startX maxJ j cs sc) :
    RowInv startX maxJ (j + 1) 1 (slideState sc) := by
  obtain ⟨hj, hjm, h0, h1, h2, hcs⟩ := hinv
  simp only [RowInv, slideState]; norm_num; omega

theorem endOfRow_queries (g : Grid) (ms : ℚ) (i maxJ startX : Int) (sc : StateCount)
    (centers : List AlignmentPattern)
    (hi0 : 0 ≤ i) (hi1 : i < g.height) (hsx : 0 ≤ startX) (hJw : maxJ ≤ g.width)
    {j cs : Int} (hinv : RowInv startX maxJ j cs sc) :
    ∀ p ∈ (endOfRow g ms i maxJ sc centers).queries, InBounds g p := by
  intro p hp
  simp only [endOfRow] at hp
  by_cases hf : foundPatternCross sc ms = true
  · rw [if_pos hf] at hp
    dsimp only at hp
    rw [handlePossibleCenter_queries_eq] at hp
    obtain ⟨f0, f1, f2, fm⟩ := foundPatternCross_pos hf
    obtain ⟨hj, hjm, h0, h1, h2, hcs⟩ := hinv
    have hcs2 : cs = 2 := by
      rcases hcs with h | h | h
      · have := h0 h; omega
      · have := h1 h; omega
      · exact h
    have hb := h2 hcs2
    have hjJ : j ≤ maxJ := by
      rcases hjm with h | h
      · exact h
      · omega
    have ht := trunc_bounds_of_counts hsx f1 f2 (e := maxJ) (by omega)
    exact crossCheckVertical_queries g i _ _ _ ms ht.1 (by omega) hi0 hi1 p hp
  · rw [if_neg hf] at hp
    simp at hp

theorem scanRowLoop_queries (g : Grid) (ms : ℚ) (i maxJ startX : Int)
    (hi0 : 0 ≤ i) (hi1 : i < g.height) (hsx : 0 ≤ startX) (hJw : maxJ ≤ g.width) :
    ∀ (fuel : Nat) (j cs : Int) (sc : StateCount) (centers : List AlignmentPattern),
      RowInv startX maxJ j cs sc →
      ∀ p ∈ (scanRowLoop g ms i maxJ fuel j cs sc centers).queries, InBounds g p := by
  intro fuel
  induction fuel with
  | zero =>
    intro j cs sc centers hinv p hp
    simp only [scanRowLoop] at hp
    exact endOfRow_queries g ms i maxJ startX sc centers hi0 hi1 hsx hJw hinv p hp
  | succ n ih =>
    intro j cs sc centers hinv p hp
    have hj := hinv.1
    simp only [scanRowLoop] at hp
    by_cases hjlt : j < maxJ
    · rw [if_pos hjlt] at hp
      by_cases hw : g.isDark j i = true ∧ cs = 2
      · rw [if_pos hw] at hp
        by_cases hf : foundPatternCross sc ms = true
        · rw [if_pos hf] at hp
          obtain ⟨f0, f1, f2, fm⟩ := foundPatternCross_pos hf
          have hb := hinv.2.2.2.2.1 hw.2
          have ht := trunc_bounds_of_counts hsx f1 f2 (e := j) (by omega)
          have hHq : ∀ q ∈ (handlePossibleCenter g sc i j ms centers).queries,
              InBounds g q := by
            intro q hq
            rw [handlePossibleCenter_queries_eq] at hq
            exact crossCheckVertical_queries g i _ _ _ ms ht.1 (by omega) hi0 hi1 q hq
          rcases hconf : (handlePossibleCenter g sc i j ms centers).confirmed
            with _ | conf
          · rw [hconf] at hp
            dsimp only at hp
            rw [List.mem_cons] at hp
            rcases hp with rfl | hp
            · exact ⟨by omega, by omega, hi0, hi1⟩
            · rw [List.mem_append] at hp
              rcases hp with hp | hp
              · exact hHq p hp
              · exact ih (j + 1) 1 (slideState sc)
                  (handlePossibleCenter g sc i j ms centers).centers
                  (slideState_inv hjlt hinv) p hp
          · rw [hconf] at hp
            dsimp only at hp
            rw [List.mem_cons] at hp
            rcases hp with rfl | hp
            · exact ⟨by omega, by omega, hi0, hi1⟩
            · exact hHq p hp
        · rw [if_neg hf] at hp
          dsimp only at hp
          rw [List.mem_cons] at hp
          rcases hp with rfl | hp
          · exact ⟨by omega, by omega, hi0, hi1⟩
          · exact ih (j + 1) 1 (slideState sc) centers (slideState_inv hjlt hinv) p hp
      · rw [if_neg hw] at hp
        dsimp only at hp
        rw [List.mem_cons] at hp
        rcases hp with rfl | hp
        · exact ⟨by omega, by omega, hi0, hi1⟩
        · exact ih (j + 1) _ _ centers
            (rowStepNoWinner_inv (g.isDark j i) hjlt hw hinv) p hp
    · rw [if_neg hjlt] at hp
      exact endOfRow_queries g ms i maxJ startX sc centers hi0 hi1 hsx hJw hinv p hp

theorem burnWhiteF_queries (g : Grid) (i maxJ : Int) :
    ∀ (fuel : Nat) (j : Int), ∀ p ∈ (burnWhiteF g i maxJ fuel j).queries,
      p.2 = i ∧ j ≤ p.1 ∧ p.1 < maxJ := by
  intro fuel
  induction fuel with
  | zero => intro j p hp; simp [burnWhiteF] at hp
  | succ n ih =>
    intro j p hp
    simp only [burnWhiteF] at hp
    by_cases h0 : j < maxJ
    · rw [if_pos h0] at hp
      by_cases hd : g.isDark j i = true
      · rw [if_pos hd] at hp
        simp only [List.mem_singleton] at hp
        subst hp
        exact ⟨rfl, le_refl j, h0⟩
      · rw [if_neg hd] at hp
        dsimp only at hp
        rw [List.mem_cons] at hp
        rcases hp with rfl | hp
        · exact ⟨rfl, le_refl j, h0⟩
        · obtain ⟨ha, hb, hc⟩ := ih (j + 1) p hp
          exact ⟨ha, by omega, hc⟩
    · rw [if_neg h0] at hp
      simp at hp

theorem burnWhiteF_j_ge (g : Grid) (i maxJ : Int) :
    ∀ (fuel : Nat) (j : Int), j ≤ (burnWhiteF g i maxJ fuel j).j := by
  intro fuel
  induction fuel with
  | zero => intro j; simp [burnWhiteF]
  | succ n ih =>
    intro j
    simp only [burnWhiteF]
    by_cases h0 : j < maxJ
    · rw [if_pos h0]
      by_cases hd : g.isDark j i = true
      · rw [if_pos hd]
      · rw [if_neg hd]
        have := ih (j + 1)
        dsimp only
        omega
    · rw [if_neg h0]

theorem scanRow_queries (g : Grid) (ms : ℚ) (i startX maxJ : Int)
    (centers : List AlignmentPattern)
    (hi0 : 0 ≤ i) (hi1 : i < g.height) (hsx : 0 ≤ startX) (hJw : maxJ ≤ g.width) :
    ∀ p ∈ (scanRow g ms i startX maxJ centers).queries, InBounds g p := by
  intro p hp
  simp only [scanRow] at hp
  try dsimp only at hp
  rw [List.mem_append] at hp
  rcases hp with hp | hp
  · obtain ⟨ha, hb, hc⟩ := burnWhiteF_queries g i maxJ _ startX p hp
    exact ⟨by omega, by omega, by omega, by omega⟩
  · refine scanRowLoop_queries g ms i maxJ startX hi0 hi1 hsx hJw _ _ 0 ⟨0, 0, 0⟩
      centers ?_ p hp
    exact ⟨burnWhiteF_j_ge g i maxJ _ startX, Or.inr rfl, fun _ => ⟨rfl, rfl⟩,
      fun h => absurd h (by norm_num), fun h => absurd h (by norm_num), Or.inl rfl⟩

theorem rowAt_bounds (s : Int) {height iGen : Int} (h0 : 0 ≤ iGen) (h1 : iGen < height) :
    s ≤ rowAt (s + height / 2) iGen ∧
      rowAt (s + height / 2) iGen < s + height := by
  unfold rowAt
  by_cases h : iGen % 2 = 0
  · rw [if_pos h]; omega
  · rw [if_neg h]; omega

theorem findLoopF_queries (g : Grid) (ms : ℚ) (startX maxJ startY height : Int)
    (hsx : 0 ≤ startX) (hJw : maxJ ≤ g.width) (hsy : 0 ≤ startY)
    (hh : startY + height ≤ g.height) :
    ∀ (fuel : Nat) (iGen : Int) (centers : List AlignmentPattern), 0 ≤ iGen →
      ∀ p ∈ (findLoopF g ms startX maxJ (startY + height / 2) height fuel
        iGen centers).queries, InBounds g p := by
  intro fuel
  induction fuel with
  | zero => intro iGen centers hg p hp; simp [findLoopF] at hp
  | succ n ih =>
    intro iGen centers hg p hp
    simp only [findLoopF] at hp
    by_cases hlt : iGen < height
    · rw [if_pos hlt] at hp
      have hr := rowAt_bounds startY hg hlt
      have hrq := scanRow_queries g ms (rowAt (startY + height / 2) iGen) startX maxJ
        centers (by omega) (by omega) hsx hJw
      rcases hconf : (scanRow g ms (rowAt (startY + height / 2) iGen) startX maxJ
          centers).confirmed with _ | c
      · rw [hconf] at hp
        dsimp only at hp
        rw [List.mem_append] at hp
        rcases hp with hp | hp
        · exact hrq p hp
        · exact ih (iGen + 1) _ (by omega) p hp
      · rw [hconf] at hp
        dsimp only at hp
        exact hrq p hp
    · rw [if_neg hlt] at hp
      simp at hp

/-! ## The candidate list is append-only: `centers = initial ++ recorded` -/

theorem endOfRow_centers_eq (g : Grid) (ms : ℚ) (i maxJ : Int) (sc : StateCount)
    (centers : List AlignmentPattern) :
    (endOfRow g ms i maxJ sc centers).centers
      = centers ++ (endOfRow g ms i maxJ sc centers).recorded := by
  simp only [endOfRow]
  by_cases hf : foundPatternCross sc ms = true
  · rw [if_pos hf]
    dsimp only
    exact handlePossibleCenter_centers_eq g sc i maxJ ms centers
  · rw [if_neg hf]
    simp

theorem scanRowLoop_centers_eq (g : Grid) (ms : ℚ) (i maxJ : Int) :
    ∀ (fuel : Nat) (j cs : Int) (sc : StateCount) (centers : List AlignmentPattern),
      (scanRowLoop g ms i maxJ fuel j cs sc centers).centers
        = centers ++ (scanRowLoop g ms i maxJ fuel j cs sc centers).recorded := by
  intro fuel
  induction fuel with
  | zero =>
    intro j cs sc centers
    simp only [scanRowLoop]
    exact endOfRow_centers_eq g ms i maxJ sc centers
  | succ n ih =>
    intro j cs sc centers
    simp only [scanRowLoop]
    by_cases hjlt : j < maxJ
    · rw [if_pos hjlt]
      by_cases hw : g.isDark j i = true ∧ cs = 2
      · rw [if_pos hw]
        by_cases hf : foundPatternCross sc ms = true
        · rw [if_pos hf]
          rcases hconf : (handlePossibleCenter g sc i j ms centers).confirmed
            with _ | conf
          · dsimp only
            rw [ih, handlePossibleCenter_centers_eq g sc i j ms centers,
              List.append_assoc]
          · dsimp only
            exact handlePossibleCenter_centers_eq g sc i j ms centers
        · rw [if_neg hf]
          dsimp only
          exact ih (j + 1) 1 (slideState sc) centers
      · rw [if_neg hw]
        dsimp only
        exact ih (j + 1) _ _ centers
    · rw [if_neg hjlt]
      exact endOfRow_centers_eq g ms i maxJ sc centers

theorem scanRow_centers_eq (g : Grid) (ms : ℚ) (i startX maxJ : Int)
    (centers : List AlignmentPattern) :
    (scanRow g ms i startX maxJ centers).centers
      = centers ++ (scanRow g ms i startX maxJ centers).recorded := by
  simp only [scanRow]
  exact scanRowLoop_centers_eq g ms i maxJ _ _ 0 ⟨0, 0, 0⟩ centers

theorem findLoopF_centers_eq (g : Grid) (ms : ℚ) (startX maxJ middleI height : Int) :
    ∀ (fuel : Nat) (iGen : Int) (centers : List AlignmentPattern),
      (findLoopF g ms startX maxJ middleI height fuel iGen centers).centers
        = centers ++ (findLoopF g ms startX maxJ middleI height fuel iGen centers).recorded := by
  intro fuel
  induction fuel with
  | zero => intro iGen centers; simp [findLoopF]
  | succ n ih =>
    intro iGen centers
    simp only [findLoopF]
    by_cases hlt : iGen < height
    · rw [if_pos hlt]
      rcases hconf : (scanRow g ms (rowAt middleI iGen) startX maxJ centers).confirmed
        with _ | c
      · dsimp only
        rw [ih, scanRow_centers_eq g ms (rowAt middleI iGen) startX maxJ centers,
          List.append_assoc]
      · dsimp only
        exact scanRow_centers_eq g ms (rowAt middleI iGen) startX maxJ centers
    · rw [if_neg hlt]
      simp

/-! ## The candidate list stays pairwise non-matching -/

theorem endOfRow_pairwise (g : Grid) (ms : ℚ) (i maxJ : Int) (sc : StateCount)
    (centers : List AlignmentPattern) (h : List.Pairwise noMatch centers) :
    List.Pairwise noMatch (endOfRow g ms i maxJ sc centers).centers := by
  simp only [endOfRow]
  by_cases hf : foundPatternCross sc ms = true
  · rw [if_pos hf]
    dsimp only
    exact handlePossibleCenter_pairwise g sc i maxJ ms centers h
  · rw [if_neg hf]
    simpa using h

theorem scanRowLoop_pairwise (g : Grid) (ms : ℚ) (i maxJ : Int) :
    ∀ (fuel : Nat) (j cs : Int) (sc : StateCount) (centers : List AlignmentPattern),
      List.Pairwise noMatch centers →
      List.Pairwise noMatch (scanRowLoop g ms i maxJ fuel j cs sc centers).centers := by
  intro fuel
  induction fuel with
  | zero =>
    intro j cs sc centers h
    simp only [scanRowLoop]
    exact endOfRow_pairwise g ms i maxJ sc centers h
  | succ n ih =>
    intro j cs sc centers h
    simp only [scanRowLoop]
    by_cases hjlt : j < maxJ
    · rw [if_pos hjlt]
      by_cases hw : g.isDark j i = true ∧ cs = 2
      · rw [if_pos hw]
        by_cases hf : foundPatternCross sc ms = true
        · rw [if_pos hf]
          rcases hconf : (handlePossibleCenter g sc i j ms centers).confirmed
            with _ | conf
          · dsimp only
            exact ih (j + 1) 1 (slideState sc) _
              (handlePossibleCenter_pairwise g sc i j ms centers h)
          · dsimp only
            exact handlePossibleCenter_pairwise g sc i j ms centers h
        · rw [if_neg hf]
          dsimp only
          exact ih (j + 1) 1 (slideState sc) centers h
      · rw [if_neg hw]
        dsimp only
        exact ih (j + 1) _ _ centers h
    · rw [if_neg hjlt]
      exact endOfRow_pairwise g ms i maxJ sc centers h

theorem scanRow_pairwise (g : Grid) (ms : ℚ) (i startX maxJ : Int)
    (centers : List AlignmentPattern) (h : List.Pairwise noMatch centers) :
    List.Pairwise noMatch (scanRow g ms i startX maxJ centers).centers := by
  simp only [scanRow]
  exact scanRowLoop_pairwise g ms i maxJ _ _ 0 ⟨0, 0, 0⟩ centers h

theorem findLoopF_pairwise (g : Grid) (ms : ℚ) (startX maxJ middleI height : Int) :
    ∀ (fuel : Nat) (iGen : Int) (centers : List AlignmentPattern),
      List.Pairwise noMatch centers →
      List.Pairwise noMatch
        (findLoopF g ms startX maxJ middleI height fuel iGen centers).centers := by
  intro fuel
  induction fuel with
  | zero => intro iGen centers h; simpa [findLoopF] using h
  | succ n ih =>
    intro iGen centers h
    simp only [findLoopF]
    by_cases hlt : iGen < height
    · rw [if_pos hlt]
      rcases hconf : (scanRow g ms (rowAt middleI iGen) startX maxJ centers).confirmed
        with _ | c
      · dsimp only
        exact ih (iGen + 1) _ (scanRow_pairwise g ms (rowAt middleI iGen) startX maxJ centers h)
      · dsimp only
        exact scanRow_pairwise g ms (rowAt middleI iGen) startX maxJ centers h
    · rw [if_neg hlt]
      simpa using h

/-! ## Non-positive module size: nothing ever validates -/

theorem endOfRow_nonpos {ms : ℚ} (hms : ms ≤ 0) (g : Grid) (i maxJ : Int)
    (sc : StateCount) (centers : List AlignmentPattern) :
    (endOfRow g ms i maxJ sc centers).confirmed = none ∧
    (endOfRow g ms i maxJ sc centers).centers = centers ∧
    (endOfRow g ms i maxJ sc centers).recorded = [] := by
  simp only [endOfRow]
  rw [if_neg (by simp [foundPatternCross_nonpos hms sc])]
  exact ⟨rfl, rfl, rfl⟩

theorem scanRowLoop_nonpos {ms : ℚ} (hms : ms ≤ 0) (g : Grid) (i maxJ : Int) :
    ∀ (fuel : Nat) (j cs : Int) (sc : StateCount) (centers : List AlignmentPattern),
      (scanRowLoop g ms i maxJ fuel j cs sc centers).confirmed = none ∧
      (scanRowLoop g ms i maxJ fuel j cs sc centers).centers = centers ∧
      (scanRowLoop g ms i maxJ fuel j cs sc centers).recorded = [] := by
  intro fuel
  induction fuel with
  | zero =>
    intro j cs sc centers
    simp only [scanRowLoop]
    exact endOfRow_nonpos hms g i maxJ sc centers
  | succ n ih =>
    intro j cs sc centers
    simp only [scanRowLoop]
    by_cases hjlt : j < maxJ
    · rw [if_pos hjlt]
      by_cases hw : g.isDark j i = true ∧ cs = 2
      · rw [if_pos hw]
        rw [if_neg (by simp [foundPatternCross_nonpos hms sc])]
        dsimp only
        exact ih (j + 1) 1 (slideState sc) centers
      · rw [if_neg hw]
        dsimp only
        exact ih (j + 1) _ _ centers
    · rw [if_neg hjlt]
      exact endOfRow_nonpos hms g i maxJ sc centers

theorem scanRow_nonpos {ms : ℚ} (hms : ms ≤ 0) (g : Grid) (i startX maxJ : Int)
    (centers : List AlignmentPattern) :
    (scanRow g ms i startX maxJ centers).confirmed = none ∧
    (scanRow g ms i startX maxJ centers).centers = centers ∧
    (scanRow g ms i startX maxJ centers).recorded = [] := by
  simp only [scanRow]
  exact scanRowLoop_nonpos hms g i maxJ _ _ 0 ⟨0, 0, 0⟩ centers

theorem findLoopF_nonpos {ms : ℚ} (hms : ms ≤ 0) (g : Grid)
    (startX maxJ middleI height : Int) :
    ∀ (fuel : Nat) (iGen : Int) (centers : List AlignmentPattern),
      (findLoopF g ms startX maxJ middleI height fuel iGen centers).confirmed = none ∧
      (findLoopF g ms startX maxJ middleI height fuel iGen centers).centers = centers ∧
      (findLoopF g ms startX maxJ middleI height fuel iGen centers).recorded = [] := by
  intro fuel
  induction fuel with
  | zero => intro iGen centers; simp [findLoopF]
  | succ n ih =>
    intro iGen centers
    simp only [findLoopF]
    by_cases hlt : iGen < height
    · rw [if_pos hlt]
      have hr := scanRow_nonpos hms g (rowAt middleI iGen) startX maxJ centers
      rw [hr.1]
      dsimp only
      rw [hr.2.1, hr.2.2]
      have := ih (iGen + 1) centers
      refine ⟨this.1, this.2.1, ?_⟩
      rw [List.nil_append]
      exact this.2.2
    · rw [if_neg hlt]
      simp

/-! ## The rows visited follow the zig-zag enumeration -/

theorem findLoopF_rows (g : Grid) (ms : ℚ) (startX maxJ middleI height : Int) :
    ∀ (fuel : Nat) (iGen : Int) (centers : List AlignmentPattern),
      ((findLoopF g ms startX maxJ middleI height fuel iGen centers).rows <+:
        specZigZagRowsF middleI height fuel iGen) ∧
      ((findLoopF g ms startX maxJ middleI height fuel iGen centers).confirmed = none →
        (findLoopF g ms startX maxJ middleI height fuel iGen centers).rows =
          specZigZagRowsF middleI height fuel iGen) := by
  intro fuel
  induction fuel with
  | zero => intro iGen centers; simp [findLoopF, specZigZagRowsF]
  | succ n ih =>
    intro iGen centers
    simp only [findLoopF, specZigZagRowsF]
    by_cases hlt : iGen < height
    · rw [if_pos hlt, if_pos hlt]
      rcases hconf : (scanRow g ms (rowAt middleI iGen) startX maxJ centers).confirmed
        with _ | c
      · dsimp only
        obtain ⟨hpre, heq⟩ := ih (iGen + 1)
          (scanRow g ms (rowAt middleI iGen) startX maxJ centers).centers
        constructor
        · exact (List.cons_prefix_cons).mpr ⟨rfl, hpre⟩
        · intro hcn
          rw [heq hcn]
      · dsimp only
        constructor
        · exact ⟨specZigZagRowsF middleI height n (iGen + 1), rfl⟩
        · intro hcn
          cases hcn
    · rw [if_neg hlt, if_neg hlt]
      simp

theorem specZigZagRowsF_get (middleI height : Int) :
    ∀ (fuel : Nat) (iGen : Int) (n : Nat), iGen + (n : Int) < height → n < fuel →
      (specZigZagRowsF middleI height fuel iGen).get? n
        = some (rowAt middleI (iGen + (n : Int))) := by
  intro fuel
  induction fuel with
  | zero => intro iGen n h1 h2; omega
  | succ f ih =>
    intro iGen n h1 h2
    have hlt : iGen < height := by omega
    simp only [specZigZagRowsF, if_pos hlt]
    cases n with
    | zero => simp
    | succ m =>
      rw [List.get?_cons_succ]
      rw [ih (iGen + 1) m (by push_cast at h1 ⊢; omega) (by omega)]
      congr 2
      push_cast
      ring

/-! ## Concrete evaluations shared between claim theorems -/

theorem gridCol_cross_check_result :
    (crossCheckVertical gridCol 2 0 10 5 (3 / 2)).result = some (5 / 2) := by
  norm_num [crossCheckVertical, vphase1, vphase2, vphase3, vphase4, scanUpRun,
    scanDownRun, vscanUpF, vscanDownF, gridCol, foundPatternCross, centerFromEnd,
    abs_sub_lt_iff, le_abs, abs_sub_le_iff, lt_abs]

/-! ## Claim theorems -/

/-- C7: the ratio validator `FoundPatternCross` (named `isValidRatio` in
the spec) is true iff every count deviates from `moduleSize` by
strictly less than `moduleSize / 2`; with `moduleSize = 10` the count
triples `(10,10,10)` and `(8,11,8)` validate and `(10,20,10)` does not. -/
theorem C7_ratio_validator :
    (∀ (sc : StateCount) (ms : ℚ),
      foundPatternCross sc ms = true ↔
        (|ms - (sc.c0 : ℚ)| < ms / 2 ∧ |ms - (sc.c1 : ℚ)| < ms / 2 ∧
          |ms - (sc.c2 : ℚ)| < ms / 2)) ∧
    foundPatternCross ⟨10, 10, 10⟩ 10 = true ∧
    foundPatternCross ⟨8, 11, 8⟩ 10 = true ∧
    foundPatternCross ⟨10, 20, 10⟩ 10 = false := by
  refine ⟨foundPatternCross_eq_true_iff, ?_, ?_, ?_⟩ <;>
    norm_num [foundPatternCross, abs_sub_lt_iff, le_abs]

/-- C2 counterexample: on the column light, dark, dark, dark, light (rows
0–4 of `gridDarkCol`) with the vertical cross-check starting at row 2, the
run of *light* pixels upward from the start row is empty, yet the middle
counter `stateCount[1]` ends at 3 — the middle counter accumulates dark
pixels, not light ones as the claim states. -/
theorem C2_counterexample :
    (crossCheckVertical gridDarkCol 2 0 10 5 1).counts.c1 = 3 ∧
    runUp gridDarkCol 0 2 false = 0 ∧
    (crossCheckVertical gridDarkCol 2 0 10 5 1).counts.c1 ≠
      ((runUp gridDarkCol 0 2 false : Nat) : Int) := by
  refine ⟨by decide, by decide, by decide⟩

/-- C2 (amended): the run triple is light/dark/light rather than
dark/light/dark.  The middle counter of the vertical cross-check is fed by the
`want = true` (dark) scans (`vphase1`/`vphase3` in `crossCheckVertical`):
the counter of an upward scan equals the length of the run of `want`-coloured
pixels above the start, capped by `maxCount + 1` and the edge; the outer
slots are fed by the `want = false` (light) scans (`vphase2`/`vphase4`).
In the horizontal machine a dark pixel in state 1 increments the middle
count `stateCount[1]`, a light pixel in state 1 or 2 increments
`stateCount[2]`, and the slide moves the previous light count into slot
0. -/
theorem C2_runs_polarity :
    (∀ (g : Grid) (x mc y : Int) (want : Bool),
      (scanUpRun g x want mc y 0).cnt
        = ((min (runUp g x y want) ((mc + 1).toNat) : Nat) : Int)) ∧
    (∀ sc : StateCount, rowStepNoWinner true 1 sc = (1, ⟨sc.c0, sc.c1 + 1, sc.c2⟩)) ∧
    (∀ sc : StateCount, rowStepNoWinner false 1 sc = (2, ⟨sc.c0, sc.c1, sc.c2 + 1⟩)) ∧
    (∀ sc : StateCount, rowStepNoWinner false 2 sc = (2, ⟨sc.c0, sc.c1, sc.c2 + 1⟩)) ∧
    (∀ sc : StateCount, slideState sc = ⟨sc.c2, 1, 0⟩) := by
  refine ⟨fun g x mc y want => scanUpRun_cnt g x want mc y, ?_, ?_, ?_, fun _ => rfl⟩
  · intro sc; simp [rowStepNoWinner, StateCount.inc]
  · intro sc; norm_num [rowStepNoWinner, StateCount.inc]
  · intro sc; norm_num [rowStepNoWinner, StateCount.inc]

/-- C3 counterexample: on the column light, light, dark, light, light
(`gridCol`, start row 2, `maxCount = 10`, `originalTotal = 5`,
`moduleSize = 3/2`) the upward scan runs off the top edge while counting
the upper outer light run (final row index −1) and the downward scan
reaches the bottom edge during the lower outer run, yet
`CrossCheckVertical` returns the center 5/2 instead of NotConfirmed. -/
theorem C3_counterexample :
    (vphase2 gridCol 0 10 2).endI = -1 ∧
    (vphase4 gridCol 0 10 2).endI = gridCol.height ∧
    (crossCheckVertical gridCol 2 0 10 5 (3 / 2)).result = some (5 / 2) := by
  exact ⟨by decide, by decide, gridCol_cross_check_result⟩

/-- C3 (amended): a boundary overrun yields NotConfirmed only for the
scans of the middle (dark) run — top edge during `vphase1`, bottom edge during
`vphase3` — while the outer light runs fail only when their counts exceed
`maxCount`; an edge reached during an outer run merely ends that run.
Consequently a confirmed result certifies exactly these checks. -/
theorem C3_confirmed_implies_checks (g : Grid) (startI centerJ mc orig : Int)
    (ms : ℚ) (r : ℚ)
    (h : (crossCheckVertical g startI centerJ mc orig ms).result = some r) :
    0 ≤ (vphase1 g centerJ mc startI).endI ∧
    (vphase1 g centerJ mc startI).cnt ≤ mc ∧
    (vphase2 g centerJ mc startI).cnt ≤ mc ∧
    (vphase3 g centerJ mc startI).endI ≠ g.height ∧
    (vphase3 g centerJ mc startI).cnt ≤ mc ∧
    (vphase4 g centerJ mc startI).cnt ≤ mc ∧
    5 * |(vphase2 g centerJ mc startI).cnt + (vphase3 g centerJ mc startI).cnt
        + (vphase4 g centerJ mc startI).cnt - orig| < 2 * orig ∧
    foundPatternCross ⟨(vphase2 g centerJ mc startI).cnt,
      (vphase3 g centerJ mc startI).cnt, (vphase4 g centerJ mc startI).cnt⟩ ms = true ∧
    r = centerFromEnd ⟨(vphase2 g centerJ mc startI).cnt,
      (vphase3 g centerJ mc startI).cnt, (vphase4 g centerJ mc startI).cnt⟩
      (vphase4 g centerJ mc startI).endI := by
  simp only [crossCheckVertical] at h
  by_cases h1 : (vphase1 g centerJ mc startI).endI < 0 ∨ (vphase1 g centerJ mc startI).cnt > mc
  · rw [if_pos h1] at h; simp at h
  · rw [if_neg h1] at h
    by_cases h2 : (vphase2 g centerJ mc startI).cnt > mc
    · rw [if_pos h2] at h; simp at h
    · rw [if_neg h2] at h
      by_cases h3 : (vphase3 g centerJ mc startI).endI = g.height ∨
          (vphase3 g centerJ mc startI).cnt > mc
      · rw [if_pos h3] at h; simp at h
      · rw [if_neg h3] at h
        by_cases h4 : (vphase4 g centerJ mc startI).cnt > mc
        · rw [if_pos h4] at h; simp at h
        · rw [if_neg h4] at h
          dsimp only at h
          by_cases h5 : 5 * |(vphase2 g centerJ mc startI).cnt
              + (vphase3 g centerJ mc startI).cnt + (vphase4 g centerJ mc startI).cnt
              - orig| ≥ 2 * orig
          · rw [if_pos h5] at h; simp at h
          · rw [if_neg h5] at h
            by_cases h6 : foundPatternCross ⟨(vphase2 g centerJ mc startI).cnt,
                (vphase3 g centerJ mc startI).cnt, (vphase4 g centerJ mc startI).cnt⟩ ms = true
            · rw [if_pos h6] at h
              simp only [Option.some.injEq] at h
              push_neg at h5
              refine ⟨by omega, by omega, by omega, by omega, by omega, by omega,
                h5, h6, h.symm⟩
            · rw [if_neg h6] at h; simp at h

/-- C3 witness: the checks certified by a confirmed cross-check, at the
concrete confirmed run on `gridCol`. -/
theorem C3_witness :
    0 ≤ (vphase1 gridCol 0 10 2).endI ∧
    (vphase1 gridCol 0 10 2).cnt ≤ 10 ∧
    (vphase2 gridCol 0 10 2).cnt ≤ 10 ∧
    (vphase3 gridCol 0 10 2).endI ≠ gridCol.height ∧
    (vphase3 gridCol 0 10 2).cnt ≤ 10 ∧
    (vphase4 gridCol 0 10 2).cnt ≤ 10 ∧
    5 * |(vphase2 gridCol 0 10 2).cnt + (vphase3 gridCol 0 10 2).cnt
        + (vphase4 gridCol 0 10 2).cnt - 5| < 2 * 5 ∧
    foundPatternCross ⟨(vphase2 gridCol 0 10 2).cnt, (vphase3 gridCol 0 10 2).cnt,
      (vphase4 gridCol 0 10 2).cnt⟩ (3 / 2) = true ∧
    (5 / 2 : ℚ) = centerFromEnd ⟨(vphase2 gridCol 0 10 2).cnt,
      (vphase3 gridCol 0 10 2).cnt, (vphase4 gridCol 0 10 2).cnt⟩
      (vphase4 gridCol 0 10 2).endI :=
  C3_confirmed_implies_checks gridCol 2 0 10 5 (3 / 2) (5 / 2) gridCol_cross_check_result

/-- C6: when all four directional scans complete within their bounds,
`CrossCheckVertical` computes `total` as the sum of the three run counts,
returns NotConfirmed when `5 * |total − originalTotal| ≥ 2 *
originalTotal`, and otherwise returns `centerFromEnd(counts, endRowIndex)`
exactly when the ratio validator accepts the counts. -/
theorem C6_cross_check_final (g : Grid) (startI centerJ mc orig : Int) (ms : ℚ)
    (h1 : 0 ≤ (vphase1 g centerJ mc startI).endI)
    (h2 : (vphase1 g centerJ mc startI).cnt ≤ mc)
    (h3 : (vphase2 g centerJ mc startI).cnt ≤ mc)
    (h4 : (vphase3 g centerJ mc startI).endI ≠ g.height)
    (h5 : (vphase3 g centerJ mc startI).cnt ≤ mc)
    (h6 : (vphase4 g centerJ mc startI).cnt ≤ mc) :
    (crossCheckVertical g startI centerJ mc orig ms).result =
      (if 5 * |(vphase2 g centerJ mc startI).cnt + (vphase3 g centerJ mc startI).cnt
          + (vphase4 g centerJ mc startI).cnt - orig| ≥ 2 * orig then none
       else if foundPatternCross ⟨(vphase2 g centerJ mc startI).cnt,
          (vphase3 g centerJ mc startI).cnt, (vphase4 g centerJ mc startI).cnt⟩ ms then
         some (centerFromEnd ⟨(vphase2 g centerJ mc startI).cnt,
           (vphase3 g centerJ mc startI).cnt, (vphase4 g centerJ mc startI).cnt⟩
           (vphase4 g centerJ mc startI).endI)
       else none) := by
  simp only [crossCheckVertical]
  rw [if_neg (by omega : ¬((vphase1 g centerJ mc startI).endI < 0 ∨
    (vphase1 g centerJ mc startI).cnt > mc))]
  rw [if_neg (by omega : ¬(vphase2 g centerJ mc startI).cnt > mc)]
  rw [if_neg (by omega : ¬((vphase3 g centerJ mc startI).endI = g.height ∨
    (vphase3 g centerJ mc startI).cnt > mc))]
  rw [if_neg (by omega : ¬(vphase4 g centerJ mc startI).cnt > mc)]

/-- C6 witness: the final-check equation instantiated at the concrete
confirmed run on `gridCol`. -/
theorem C6_witness :
    (crossCheckVertical gridCol 2 0 10 5 (3 / 2)).result =
      (if 5 * |(vphase2 gridCol 0 10 2).cnt + (vphase3 gridCol 0 10 2).cnt
          + (vphase4 gridCol 0 10 2).cnt - 5| ≥ 2 * 5 then none
       else if foundPatternCross ⟨(vphase2 gridCol 0 10 2).cnt,
          (vphase3 gridCol 0 10 2).cnt, (vphase4 gridCol 0 10 2).cnt⟩ (3 / 2) then
         some (centerFromEnd ⟨(vphase2 gridCol 0 10 2).cnt, (vphase3 gridCol 0 10 2).cnt,
           (vphase4 gridCol 0 10 2).cnt⟩ (vphase4 gridCol 0 10 2).endI)
       else none) :=
  C6_cross_check_final gridCol 2 0 10 5 (3 / 2) (by decide) (by decide) (by decide)
    (by decide) (by decide) (by decide)

/-- C8: when the new observation matches an existing candidate (the first
match of the ordered scan), the aggregator confirms with the plain
arithmetic mean of the two centers and module sizes, leaving the list
unchanged; on the concrete example of the spec, candidate (row 10, col 10,
size 8) merged with observation (row 10.5, col 9.6, size 8.4) gives
exactly (row 10.25, col 9.8, size 8.2).  (`aboutEquals` and
`combineEstimate` are modelled from the spec, their definitions not being
part of this source tree; the model stores no observation count, matching
the equal-weighting combination.) -/
theorem C8_aggregator_merge (centers : List AlignmentPattern) (est i j : ℚ)
    (c : AlignmentPattern)
    (hfind : centers.find? (fun c0 => aboutEquals c0 est i j) = some c) :
    (tryConfirm centers est i j).confirmed = some (combineEstimate c i j est) ∧
    (tryConfirm centers est i j).centers = centers ∧
    combineEstimate c i j est
      = ⟨(c.x + j) / 2, (c.y + i) / 2, (c.modSize + est) / 2⟩ ∧
    aboutEquals ⟨10, 10, 8⟩ (42 / 5) (21 / 2) (48 / 5) = true ∧
    combineEstimate ⟨10, 10, 8⟩ (21 / 2) (48 / 5) (42 / 5)
      = ⟨49 / 5, 41 / 4, 41 / 5⟩ := by
  refine ⟨?_, ?_, rfl, ?_, ?_⟩
  · simp [tryConfirm, hfind]
  · simp [tryConfirm, hfind]
  · norm_num [aboutEquals, abs_le]
  · norm_num [combineEstimate, AlignmentPattern.mk.injEq]

/-- C8 witness: the merge at the concrete example of the spec. -/
theorem C8_witness :
    (tryConfirm [⟨10, 10, 8⟩] (42 / 5) (21 / 2) (48 / 5)).confirmed
      = some (combineEstimate ⟨10, 10, 8⟩ (21 / 2) (48 / 5) (42 / 5)) :=
  (C8_aggregator_merge [⟨10, 10, 8⟩] (42 / 5) (21 / 2) (48 / 5) ⟨10, 10, 8⟩
    (by rw [List.find?_cons_of_pos _ (by norm_num [aboutEquals, abs_le])])).1

/-- C1 counterexample: with the 1×1 all-light grid and the window
`(startX, startY, width, height) = (0, 0, 3, 1)` that extends past the
right grid edge, `Find` reads the pixel `(2, 0)` with column `2 ≥ width =
1`: the horizontal iteration is not clamped to the grid boundary (the
result still happens to be NotFound here, but the out-of-range read
contradicts the claimed clamping). -/
theorem C1_counterexample :
    ((2 : Int), (0 : Int)) ∈ (findTrace gridSmallLight 0 0 3 1 1).queries ∧
    ¬ InBounds gridSmallLight ((2 : Int), (0 : Int)) ∧
    find gridSmallLight 0 0 3 1 1 = none := by
  refine ⟨?_, ?_, ?_⟩
  · norm_num [findTrace, findLoopF, scanRow, burnWhiteF, scanRowLoop, endOfRow, rowAt,
      gridSmallLight, foundPatternCross_zero_counts]
  · norm_num [InBounds, gridSmallLight]
  · norm_num [find, findTrace, findLoopF, scanRow, burnWhiteF, scanRowLoop, endOfRow,
      rowAt, gridSmallLight, foundPatternCross_zero_counts]

/-- C1 (amended): `Find` itself performs no clamping — only the vertical
cross-check clamps its row iteration, and windows leaving the grid cause
out-of-range reads — but whenever the window lies inside the grid
(`0 ≤ startX`, `startX + width ≤ grid width`, `0 ≤ startY`,
`startY + height ≤ grid height`), every pixel read issued during the call
satisfies `0 ≤ x < width` and `0 ≤ y < height`. -/
theorem C1_window_in_grid_queries_in_bounds (g : Grid) (sx sy w h : Int) (ms : ℚ)
    (h1 : 0 ≤ sx) (h2 : sx + w ≤ g.width) (h3 : 0 ≤ sy) (h4 : sy + h ≤ g.height) :
    ∀ p ∈ (findTrace g sx sy w h ms).queries, InBounds g p := by
  intro p hp
  simp only [findTrace] at hp
  exact findLoopF_queries g ms sx (sx + w) sy h h1 h2 h3 h4 h.toNat 0 [] (le_refl 0) p hp

/-- C1 witness: on the 2×2 all-light grid with the full window, the read
of pixel `(0, 1)` (performed on the first, middle row) is in bounds. -/
theorem C1_witness : InBounds gridW ((0 : Int), (1 : Int)) :=
  C1_window_in_grid_queries_in_bounds gridW 0 0 2 2 1 (by decide) (by decide)
    (by decide) (by decide) ((0 : Int), (1 : Int))
    (by norm_num [findTrace, findLoopF, scanRow, burnWhiteF, scanRowLoop, endOfRow,
      rowAt, gridW, foundPatternCross_zero_counts])

/-- C4: `Find` returns the confirmed (combined) candidate as soon as one
aggregation confirms; when the whole search ends unconfirmed it returns
the first candidate ever recorded (`possibleCenters` is append-only, so
`possibleCenters.front()` is the earliest recorded candidate), and it
returns NotFound exactly when no candidate was ever recorded. -/
theorem C4_result_selection (g : Grid) (sx sy w h : Int) (ms : ℚ) :
    (∀ c, (findTrace g sx sy w h ms).confirmed = some c →
      find g sx sy w h ms = some c) ∧
    ((findTrace g sx sy w h ms).confirmed = none →
      find g sx sy w h ms = (findTrace g sx sy w h ms).recorded.head?) ∧
    (find g sx sy w h ms = none ↔
      (findTrace g sx sy w h ms).confirmed = none ∧
        (findTrace g sx sy w h ms).recorded = []) := by
  have hc : (findTrace g sx sy w h ms).centers = (findTrace g sx sy w h ms).recorded := by
    have := findLoopF_centers_eq g ms sx (sx + w) (sy + h / 2) h h.toNat 0 []
    simpa [findTrace] using this
  refine ⟨?_, ?_, ?_⟩
  · intro c hcf
    simp [find, hcf]
  · intro hcf
    simp [find, hcf, hc]
  · constructor
    · intro hf
      rcases hconf : (findTrace g sx sy w h ms).confirmed with _ | c
      · refine ⟨rfl, ?_⟩
        have hh : (findTrace g sx sy w h ms).centers.head? = none := by
          simpa [find, hconf] using hf
        rw [hc] at hh
        exact List.head?_eq_none_iff.mp hh
      · exfalso
        simp [find, hconf] at hf
    · rintro ⟨hcf, hrec⟩
      simp [find, hcf, hc, hrec]

/-- C4 witness: on the 1×1 all-light grid with window `(0,0,3,1)` nothing
confirms, and `Find` falls back to the head of the recorded list. -/
theorem C4_witness :
    find gridSmallLight 0 0 3 1 1
      = (findTrace gridSmallLight 0 0 3 1 1).recorded.head? :=
  (C4_result_selection gridSmallLight 0 0 3 1 1).2.1
    (by norm_num [findTrace, findLoopF, scanRow, burnWhiteF, scanRowLoop, endOfRow,
      rowAt, gridSmallLight, foundPatternCross_zero_counts])

/-- C5: the rows examined by `Find` are an initial segment of the
zig-zag enumeration (the whole enumeration when no confirmation
short-circuits the search), and the `n`-th entry of that enumeration is
`middleRow + (n+1)/2` for even `n` and `middleRow - (n+1)/2` for odd `n`,
with `middleRow = startY + height / 2`. -/
theorem C5_zigzag_rows (g : Grid) (sx sy w h : Int) (ms : ℚ) :
    ((findTrace g sx sy w h ms).rows <+: specZigZagRows sy h) ∧
    ((findTrace g sx sy w h ms).confirmed = none →
      (findTrace g sx sy w h ms).rows = specZigZagRows sy h) ∧
    (∀ n : Nat, (n : Int) < h →
      (specZigZagRows sy h).get? n
        = some (sy + h / 2 +
            (if (n : Int) % 2 = 0 then ((n : Int) + 1) / 2
             else -(((n : Int) + 1) / 2)))) := by
  have hR := findLoopF_rows g ms sx (sx + w) (sy + h / 2) h h.toNat 0 []
  refine ⟨?_, ?_, ?_⟩
  · simpa [findTrace, specZigZagRows] using hR.1
  · intro hcf
    have hcf2 : (findLoopF g ms sx (sx + w) (sy + h / 2) h h.toNat 0 []).confirmed
        = none := by
      simpa [findTrace] using hcf
    simpa [findTrace, specZigZagRows] using hR.2 hcf2
  · intro n hn
    have := specZigZagRowsF_get (sy + h / 2) h h.toNat 0 n (by omega) (by omega)
    simpa [specZigZagRows, rowAt] using this

/-- C5 witness: on the 2×2 all-light grid with the full window no
confirmation occurs and the rows examined are exactly the zig-zag
enumeration (rows 1 then 0). -/
theorem C5_witness :
    (findTrace gridW 0 0 2 2 1).rows = specZigZagRows 0 2 :=
  (C5_zigzag_rows gridW 0 0 2 2 1).2.1
    (by norm_num [findTrace, findLoopF, scanRow, burnWhiteF, scanRowLoop, endOfRow,
      rowAt, gridW, foundPatternCross_zero_counts])

/-- C9: throughout a `Find` invocation the candidate list never holds two
entries that satisfy the proximity predicate (in recording order, the
earlier entry never `aboutEquals`-matches the observation that created the
later entry): a matching observation is merged — terminating the search —
instead of being appended, so the final list, of which every intermediate
list is a prefix, is pairwise non-matching. -/
theorem C9_candidate_list_pairwise (g : Grid) (sx sy w h : Int) (ms : ℚ) :
    List.Pairwise noMatch (findTrace g sx sy w h ms).centers := by
  have := findLoopF_pairwise g ms sx (sx + w) (sy + h / 2) h h.toNat 0 []
    List.Pairwise.nil
  simpa [findTrace] using this

/-- C10: a non-positive expected module size makes the ratio validator
reject every run triple, so `Find` never records or confirms a candidate
and returns NotFound. -/
theorem C10_nonpositive_module_size (g : Grid) (sx sy w h : Int) (ms : ℚ)
    (hms : ms ≤ 0) :
    find g sx sy w h ms = none ∧
    (findTrace g sx sy w h ms).confirmed = none ∧
    (findTrace g sx sy w h ms).recorded = [] ∧
    (∀ sc : StateCount, foundPatternCross sc ms = false) := by
  have hT := findLoopF_nonpos hms g sx (sx + w) (sy + h / 2) h h.toNat 0 []
  have h1 : (findTrace g sx sy w h ms).confirmed = none := by
    simpa [findTrace] using hT.1
  have h2 : (findTrace g sx sy w h ms).centers = [] := by
    simpa [findTrace] using hT.2.1
  have h3 : (findTrace g sx sy w h ms).recorded = [] := by
    simpa [findTrace] using hT.2.2
  exact ⟨by simp [find, h1, h2], h1, h3, foundPatternCross_nonpos hms⟩

/-- C10 witness: module size 0 on the 2×2 grid yields NotFound. -/
theorem C10_witness : find gridW 0 0 2 2 0 = none :=
  (C10_nonpositive_module_size gridW 0 0 2 2 0 (le_refl 0)).1

end QRAlign
